import Mathlib

/-!
Verification of the peparser-rs PE/COFF decoder against its specification.

The Rust sources are shallowly embedded: byte buffers are `List Nat`
(each byte taken mod 256 at its use site), the nom result type
`IResult<Input, O, PEError>` becomes `Except ErrKind (Input × O)`, and a
Rust panic (out-of-bounds slice index, failed unwrap, byteorder read past
the end) is modelled as the distinguished error `ErrKind.panicked`, kept
separate from the recoverable nom error channel.  Strings produced by
`String::from_utf8_lossy` are modelled as lists of Unicode code points.
-/

namespace Pe

/-- Error kinds carried by the `PEError` channel of the parser
(`src/errors.rs`), plus `panicked` which marks a Rust process abort:
`eof` is nom's insufficient-bytes error, `tagMismatch` a nom `tag`
failure, `mapRes` a nom `map_res` failure (unknown enumeration value),
`str` a `PEError::from_string` semantic rejection. -/
inductive ErrKind where
  | eof : ErrKind
  | tagMismatch : ErrKind
  | mapRes : ErrKind
  | str : String → ErrKind
  | panicked : ErrKind
deriving DecidableEq

/-- A borrowed byte buffer (`parse::Input = &[u8]`). -/
abbrev Input := List Nat

/-- nom `le_u8` / `be_u8` (identical on one byte): read one byte. -/
def u8r : Input → Except ErrKind (Input × Nat)
  | [] => .error .eof
  | b :: rest => .ok (rest, b % 256)

/-- nom `le_u16`: read a 16-bit little-endian value. -/
def le_u16 : Input → Except ErrKind (Input × Nat)
  | b0 :: b1 :: rest => .ok (rest, b0 % 256 + 256 * (b1 % 256))
  | _ => .error .eof

/-- nom `le_u32`: read a 32-bit little-endian value. -/
def le_u32 : Input → Except ErrKind (Input × Nat)
  | b0 :: b1 :: b2 :: b3 :: rest =>
      .ok (rest, b0 % 256 + 256 * (b1 % 256) + 65536 * (b2 % 256) +
        16777216 * (b3 % 256))
  | _ => .error .eof

/-- nom `le_u64`: read a 64-bit little-endian value. -/
def le_u64 : Input → Except ErrKind (Input × Nat)
  | b0 :: b1 :: b2 :: b3 :: b4 :: b5 :: b6 :: b7 :: rest =>
      .ok (rest, b0 % 256 + 256 * (b1 % 256) + 65536 * (b2 % 256) +
        16777216 * (b3 % 256) + 4294967296 * (b4 % 256) +
        1099511627776 * (b5 % 256) + 281474976710656 * (b6 % 256) +
        72057594037927936 * (b7 % 256))
  | _ => .error .eof

/-- nom `take(n)`: take `n` raw bytes. -/
def takeBytes (n : Nat) (i : Input) : Except ErrKind (Input × List Nat) :=
  if n ≤ i.length then .ok (i.drop n, (i.take n).map (fun b => b % 256))
  else .error .eof

/-- nom `tag(t)`: match a literal byte sequence (fails with the Tag error
kind both on mismatch and on a short buffer). -/
def tagBytes (t : List Nat) (i : Input) : Except ErrKind (Input × List Nat) :=
  if t.length ≤ i.length ∧ (i.take t.length).map (fun b => b % 256) = t then
    .ok (i.drop t.length, t)
  else .error .tagMismatch

/-- `byteorder::LittleEndian::read_u32` on `&buf[k..]`, value only
(bounds are checked by callers; out of bounds the Rust call panics). -/
def readU32At (buf : Input) (k : Nat) : Nat :=
  buf.getD k 0 % 256 + 256 * (buf.getD (k + 1) 0 % 256) +
    65536 * (buf.getD (k + 2) 0 % 256) + 16777216 * (buf.getD (k + 3) 0 % 256)

/-- `byteorder::LittleEndian::read_u16` on `&buf[k..]`, value only. -/
def readU16At (buf : Input) (k : Nat) : Nat :=
  buf.getD k 0 % 256 + 256 * (buf.getD (k + 1) 0 % 256)

/-- Is `b` a UTF-8 continuation byte (0x80..=0xBF)? -/
def isCont (b : Nat) : Bool := 0x80 ≤ b && b ≤ 0xBF

/-- Decode one UTF-8 sequence starting at byte `b0` with following bytes
`rest`; returns the code point (U+FFFD on an invalid sequence) and how
many extra bytes beyond `b0` were consumed, following the maximal-subpart
substitution used by Rust `String::from_utf8_lossy`. -/
def utf8Step (b0 : Nat) (rest : List Nat) : Nat × Nat :=
  let b0 := b0 % 256
  if b0 < 0x80 then (b0, 0)
  else if 0xC2 ≤ b0 && b0 ≤ 0xDF then
    match rest with
    | b1 :: _ =>
      let b1 := b1 % 256
      if isCont b1 then ((b0 - 0xC0) * 64 + (b1 - 0x80), 1) else (0xFFFD, 0)
    | [] => (0xFFFD, 0)
  else if 0xE0 ≤ b0 && b0 ≤ 0xEF then
    match rest with
    | b1 :: rest1 =>
      let b1 := b1 % 256
      let okB1 : Bool :=
        if b0 = 0xE0 then 0xA0 ≤ b1 && b1 ≤ 0xBF
        else if b0 = 0xED then 0x80 ≤ b1 && b1 ≤ 0x9F
        else isCont b1
      if okB1 then
        match rest1 with
        | b2 :: _ =>
          let b2 := b2 % 256
          if isCont b2 then
            ((b0 - 0xE0) * 4096 + (b1 - 0x80) * 64 + (b2 - 0x80), 2)
          else (0xFFFD, 1)
        | [] => (0xFFFD, 1)
      else (0xFFFD, 0)
    | [] => (0xFFFD, 0)
  else if 0xF0 ≤ b0 && b0 ≤ 0xF4 then
    match rest with
    | b1 :: rest1 =>
      let b1 := b1 % 256
      let okB1 : Bool :=
        if b0 = 0xF0 then 0x90 ≤ b1 && b1 ≤ 0xBF
        else if b0 = 0xF4 then 0x80 ≤ b1 && b1 ≤ 0x8F
        else isCont b1
      if okB1 then
        match rest1 with
        | b2 :: rest2 =>
          let b2 := b2 % 256
          if isCont b2 then
            match rest2 with
            | b3 :: _ =>
              let b3 := b3 % 256
              if isCont b3 then
                ((b0 - 0xF0) * 262144 + (b1 - 0x80) * 4096 +
                  (b2 - 0x80) * 64 + (b3 - 0x80), 3)
              else (0xFFFD, 2)
            | [] => (0xFFFD, 2)
          else (0xFFFD, 1)
        | [] => (0xFFFD, 1)
      else (0xFFFD, 0)
    | [] => (0xFFFD, 0)
  else (0xFFFD, 0)

/-- Fuelled worker for `utf8Lossy`; each step consumes at least one byte,
so fuel equal to the list length is always sufficient. -/
def utf8LossyGo : Nat → List Nat → List Nat
  | 0, _ => []
  | _, [] => []
  | fuel + 1, b0 :: rest =>
    let p := utf8Step b0 rest
    p.1 :: utf8LossyGo fuel (rest.drop p.2)

/-- Model of Rust `String::from_utf8_lossy`: decode a byte list to Unicode
code points, replacing invalid sequences by U+FFFD. -/
def utf8Lossy (l : List Nat) : List Nat := utf8LossyGo l.length l

/-- Model of `str::trim_end_matches('\0')`: remove all trailing NUL code
points. -/
def dropTrailingZeros (l : List Nat) : List Nat :=
  (l.reverse.dropWhile (fun c => c = 0)).reverse

/-- `Section` from `src/headers/sections.rs` (the decoded `name : String`
is a list of Unicode code points). -/
structure Section where
  name : List Nat
  vir_size : Nat
  vir_addr : Nat
  size_of_raw_data : Nat
  ptr_to_raw_data : Nat
  ptr_to_relocs : Nat
  ptr_to_line_nums : Nat
  num_of_relocs : Nat
  num_of_line_nums : Nat
  characteristics : Nat
deriving DecidableEq

/-- `Section::parse`: 8 raw name bytes (lossily decoded, trailing NULs
trimmed), six `le_u32`, two `le_u16`, one `le_u32`, 40 bytes in all. -/
def Section.parse (i : Input) : Except ErrKind (Input × Section) :=
  match takeBytes 8 i with
  | .error e => .error e
  | .ok (i, nameBytes) =>
    match le_u32 i with
    | .error e => .error e
    | .ok (i, vir_size) =>
      match le_u32 i with
      | .error e => .error e
      | .ok (i, vir_addr) =>
        match le_u32 i with
        | .error e => .error e
        | .ok (i, size_of_raw_data) =>
          match le_u32 i with
          | .error e => .error e
          | .ok (i, ptr_to_raw_data) =>
            match le_u32 i with
            | .error e => .error e
            | .ok (i, ptr_to_relocs) =>
              match le_u32 i with
              | .error e => .error e
              | .ok (i, ptr_to_line_nums) =>
                match le_u16 i with
                | .error e => .error e
                | .ok (i, num_of_relocs) =>
                  match le_u16 i with
                  | .error e => .error e
                  | .ok (i, num_of_line_nums) =>
                    match le_u32 i with
                    | .error e => .error e
                    | .ok (i, characteristics) =>
                      .ok (i,
                        { name := dropTrailingZeros (utf8Lossy nameBytes)
                          vir_size, vir_addr, size_of_raw_data
                          ptr_to_raw_data, ptr_to_relocs, ptr_to_line_nums
                          num_of_relocs, num_of_line_nums, characteristics })

/-- `Section::rva_to_offset`: defined (with u32 wrap-around on the sum)
exactly when `rva >= virtual_address`; no upper-bound check. -/
def Section.rva_to_offset (s : Section) (rva : Nat) : Option Nat :=
  if s.vir_addr ≤ rva then
    some ((rva - s.vir_addr + s.ptr_to_raw_data) % 4294967296)
  else none

/-- `Sections` (`pub struct Sections(pub Vec<Section>)`). -/
structure Sections where
  list : List Section
deriving DecidableEq

/-- Loop body of `Sections::parse`: read `n` consecutive 40-byte section
records, threading the cursor. -/
def Sections.parseGo (input : Input) : Nat → Except ErrKind (Input × List Section)
  | 0 => .ok (input, [])
  | n + 1 =>
    match Section.parse input with
    | .error e => .error e
    | .ok (i2, s) =>
      match Sections.parseGo i2 n with
      | .error e => .error e
      | .ok (i3, rest) => .ok (i3, s :: rest)

/-- `Sections::parse`: reads `n` records but returns the ORIGINAL input
slice `i` as the remaining input (`Ok((i, Sections(sections)))` in the
source), not the advanced cursor. -/
def Sections.parse (i : Input) (n : Nat) : Except ErrKind (Input × Sections) :=
  match Sections.parseGo i n with
  | .error e => .error e
  | .ok (_, l) => .ok (i, Sections.mk l)

/-- Modelled from the spec: `Sections::find_by_address` is called by
the import and export decoders but its definition is not under `src/`.  The
spec describes it as first-match-wins search by containing address, the
containment check being only `addr >= virtual_address` with no upper
bound. -/
def Sections.find_by_address (ss : Sections) (addr : Nat) : Option Section :=
  ss.list.find? (fun s => s.vir_addr ≤ addr)

/-- `Machine` enumeration from `src/headers/nt.rs` (closed set of
documented machine-type codes). -/
inductive Machine where
  | Unknown | Alpha | Alpha64 | Am33 | Amd64 | Arm | Arm64 | Armnt
  | Ebc | I386 | Ia64 | LoongArch32 | LoongArch64 | M32R | Mips16
  | MipsFpu | MipsFpu16 | PowerPc | PowerPcfp | R4000 | RiscV32
  | RiscV64 | RiscV128 | Sh3 | Sh3DSP | Sh4 | Sh5 | Thumb | WceMipsV2
deriving DecidableEq

/-- `Machine::try_from` (derived `TryFromPrimitive` over the `repr(u16)`
codes). -/
def Machine.tryFrom (x : Nat) : Option Machine :=
  if x = 0x0 then some .Unknown
  else if x = 0x184 then some .Alpha
  else if x = 0x284 then some .Alpha64
  else if x = 0x1d3 then some .Am33
  else if x = 0x8664 then some .Amd64
  else if x = 0x1c0 then some .Arm
  else if x = 0xaa64 then some .Arm64
  else if x = 0x1c4 then some .Armnt
  else if x = 0xebc then some .Ebc
  else if x = 0x14c then some .I386
  else if x = 0x200 then some .Ia64
  else if x = 0x6232 then some .LoongArch32
  else if x = 0x6264 then some .LoongArch64
  else if x = 0x9041 then some .M32R
  else if x = 0x266 then some .Mips16
  else if x = 0x366 then some .MipsFpu
  else if x = 0x466 then some .MipsFpu16
  else if x = 0x1f0 then some .PowerPc
  else if x = 0x1f1 then some .PowerPcfp
  else if x = 0x166 then some .R4000
  else if x = 0x5032 then some .RiscV32
  else if x = 0x5064 then some .RiscV64
  else if x = 0x5128 then some .RiscV128
  else if x = 0x1a2 then some .Sh3
  else if x = 0x1a3 then some .Sh3DSP
  else if x = 0x1a6 then some .Sh4
  else if x = 0x1a8 then some .Sh5
  else if x = 0x1c2 then some .Thumb
  else if x = 0x169 then some .WceMipsV2
  else none

/-- `Machine::parse`: `map_res(le_u16, try_from)`; an unrecognised code is
a nom `MapRes` failure. -/
def Machine.parse (i : Input) : Except ErrKind (Input × Machine) :=
  match le_u16 i with
  | .error e => .error e
  | .ok (i2, x) =>
    match Machine.tryFrom x with
    | some m => .ok (i2, m)
    | none => .error .mapRes

/-- `OptionalHeaderMagic` (`Pe32 = 0x10b`, `Pe32Plus = 0x20b`,
`Rom = 0x107`). -/
inductive OptionalHeaderMagic where
  | Pe32 | Pe32Plus | Rom
deriving DecidableEq

/-- `OptionalHeaderMagic::try_from`. -/
def OptionalHeaderMagic.tryFrom (x : Nat) : Option OptionalHeaderMagic :=
  if x = 0x10b then some .Pe32
  else if x = 0x20b then some .Pe32Plus
  else if x = 0x107 then some .Rom
  else none

/-- `OptionalHeaderMagic::parse`: `map_res(le_u16, try_from)`; any value
outside the three known magics is a nom `MapRes` failure. -/
def OptionalHeaderMagic.parse (i : Input) : Except ErrKind (Input × OptionalHeaderMagic) :=
  match le_u16 i with
  | .error e => .error e
  | .ok (i2, x) =>
    match OptionalHeaderMagic.tryFrom x with
    | some m => .ok (i2, m)
    | none => .error .mapRes

/-- Lower bound (seconds) of the datetime range representable by
`chrono::NaiveDateTime` (year -262144); the exact figure is irrelevant to
the development, only that it is below 0. -/
def chronoMinSecs : Int := -8334632851200

/-- Upper bound (seconds) of the datetime range representable by
`chrono::NaiveDateTime` (year 262143); the only fact used below is that
it exceeds 2^32. -/
def chronoMaxSecs : Int := 8210298412799

/-- Model of `chrono::NaiveDateTime::from_timestamp_opt(secs, 0)`: the
conversion succeeds exactly when `secs` lies in chrono's representable
datetime range (the nanosecond argument 0 is always valid); the resulting
datetime is represented by its timestamp. -/
def from_timestamp_opt (secs : Int) : Option Int :=
  if chronoMinSecs ≤ secs ∧ secs ≤ chronoMaxSecs then some secs else none

/-- `FileHeader` from `src/headers/nt.rs`; the `datetime : DateTime<Utc>`
field is represented by its seconds-since-epoch value. -/
structure FileHeader where
  machine : Machine
  num_of_sections : Nat
  datetime : Int
  ptr_to_sym_tbl : Nat
  num_of_syms : Nat
  size_of_optional_header : Nat
  characteristics : Nat
deriving DecidableEq

/-- `FileHeader::parse`: machine code, five scalar fields, and the
timestamp converted through `from_timestamp_opt`, failing with the
semantic rejection message `wrong timestamp format` when the conversion
is undefined. -/
def FileHeader.parse (i : Input) : Except ErrKind (Input × FileHeader) :=
  match Machine.parse i with
  | .error e => .error e
  | .ok (i, machine) =>
    match le_u16 i with
    | .error e => .error e
    | .ok (i, num_of_sections) =>
      match le_u32 i with
      | .error e => .error e
      | .ok (i, timestamp) =>
        match le_u32 i with
        | .error e => .error e
        | .ok (i, ptr_to_sym_tbl) =>
          match le_u32 i with
          | .error e => .error e
          | .ok (i, num_of_syms) =>
            match le_u16 i with
            | .error e => .error e
            | .ok (i, size_of_optional_header) =>
              match le_u16 i with
              | .error e => .error e
              | .ok (i, characteristics) =>
                match from_timestamp_opt (timestamp : Int) with
                | none => .error (.str "wrong timestamp format")
                | some datetime =>
                  .ok (i,
                    { machine, num_of_sections, datetime, ptr_to_sym_tbl
                      num_of_syms, size_of_optional_header, characteristics })

/-- `DirectoryEntry` enumeration (16 known data-directory kinds,
`repr(usize)` values 0..=15). -/
inductive DirectoryEntry where
  | Export | Import | Resource | Exception | Certificate
  | BaseRelocation | Debug | Architecture | Globalptr | Tls
  | LoadConfig | BoundImport | ImportAddressTable | DelayImport
  | ClrRuntime | Reserved
deriving DecidableEq

/-- `DirectoryEntry::try_from` over indices 0..=15. -/
def DirectoryEntry.tryFrom (x : Nat) : Option DirectoryEntry :=
  if x = 0 then some .Export
  else if x = 1 then some .Import
  else if x = 2 then some .Resource
  else if x = 3 then some .Exception
  else if x = 4 then some .Certificate
  else if x = 5 then some .BaseRelocation
  else if x = 6 then some .Debug
  else if x = 7 then some .Architecture
  else if x = 8 then some .Globalptr
  else if x = 9 then some .Tls
  else if x = 10 then some .LoadConfig
  else if x = 11 then some .BoundImport
  else if x = 12 then some .ImportAddressTable
  else if x = 13 then some .DelayImport
  else if x = 14 then some .ClrRuntime
  else if x = 15 then some .Reserved
  else none

/-- `DirectoryEntry::value` (`*self as usize`). -/
def DirectoryEntry.value : DirectoryEntry → Nat
  | .Export => 0
  | .Import => 1
  | .Resource => 2
  | .Exception => 3
  | .Certificate => 4
  | .BaseRelocation => 5
  | .Debug => 6
  | .Architecture => 7
  | .Globalptr => 8
  | .Tls => 9
  | .LoadConfig => 10
  | .BoundImport => 11
  | .ImportAddressTable => 12
  | .DelayImport => 13
  | .ClrRuntime => 14
  | .Reserved => 15

/-- `DataDirectory` {entry kind, virtual address, size}. -/
structure DataDirectory where
  entry : DirectoryEntry
  virtual_address : Nat
  size : Nat
deriving DecidableEq

/-- `DataDirectory::parse`: two 32-bit little-endian values. -/
def DataDirectory.parse (entry : DirectoryEntry) (input : Input) :
    Except ErrKind (Input × DataDirectory) :=
  match le_u32 input with
  | .error e => .error e
  | .ok (input, virtual_address) =>
    match le_u32 input with
    | .error e => .error e
    | .ok (input, size) => .ok (input, { entry, virtual_address, size })

/-- `DataDirectories(Vec<DataDirectory>)`. -/
structure DataDirectories where
  list : List DataDirectory
deriving DecidableEq

/-- Loop body of `DataDirectories::parse`: for each index `idx`, map it to
a `DirectoryEntry` (a hard `from_string` error when the index is outside
the known enumeration) and read one `DataDirectory`. -/
def DataDirectories.parseGo (idx : Nat) : Nat → Input → Except ErrKind (Input × List DataDirectory)
  | 0, input => .ok (input, [])
  | c + 1, input =>
    match DirectoryEntry.tryFrom idx with
    | none => .error (.str "unknown image directory")
    | some entry =>
      match DataDirectory.parse entry input with
      | .error e => .error e
      | .ok (input2, dir) =>
        match DataDirectories.parseGo (idx + 1) c input2 with
        | .error e => .error e
        | .ok (rest, dirs) => .ok (rest, dir :: dirs)

/-- `DataDirectories::parse` with a declared entry count. -/
def DataDirectories.parse (input : Input) (count : Nat) :
    Except ErrKind (Input × DataDirectories) :=
  match DataDirectories.parseGo 0 count input with
  | .error e => .error e
  | .ok (i, l) => .ok (i, DataDirectories.mk l)

/-- `DataDirectories::find_by_entry`: absent when the entry's index is
at or beyond the length of the table actually present. -/
def DataDirectories.find_by_entry (d : DataDirectories) (e : DirectoryEntry) :
    Option DataDirectory :=
  if d.list.length ≤ e.value then none
  else some (d.list.getD e.value ⟨DirectoryEntry.Export, 0, 0⟩)

/-- `OptionalHeader32` from `src/headers/nt.rs`. -/
structure OptionalHeader32 where
  magic : OptionalHeaderMagic
  major_linker_version : Nat
  minor_linker_version : Nat
  size_of_code : Nat
  size_of_initialized_code : Nat
  size_of_uninitialized_code : Nat
  address_of_entry_point : Nat
  base_of_code : Nat
  base_of_data : Nat
  image_base : Nat
  section_of_alignment : Nat
  file_alignment : Nat
  major_operating_system_version : Nat
  minor_operating_system_version : Nat
  major_image_version : Nat
  minor_image_version : Nat
  major_sub_system_version : Nat
  minor_sub_system_version : Nat
  win32_version_value : Nat
  size_of_image : Nat
  size_of_headers : Nat
  check_sum : Nat
  sub_system : Nat
  dll_characteristics : Nat
  size_of_stack_reserve : Nat
  size_of_stack_commit : Nat
  size_of_heap_reserve : Nat
  size_of_heap_commit : Nat
  loader_flags : Nat
  number_of_rva_and_sizes : Nat
  data_directories : DataDirectories
deriving DecidableEq

/-- `OptionalHeader32::parse`: the 32-bit layout; `image_base` and the
four reserve/commit sizes are 4-byte reads, and `base_of_data` is
present. -/
def OptionalHeader32.parse (i : Input) : Except ErrKind (Input × OptionalHeader32) :=
  match u8r i with
  | .error e => .error e
  | .ok (i, major_linker_version) =>
   match u8r i with
   | .error e => .error e
   | .ok (i, minor_linker_version) =>
    match le_u32 i with
    | .error e => .error e
    | .ok (i, size_of_code) =>
     match le_u32 i with
     | .error e => .error e
     | .ok (i, size_of_initialized_code) =>
      match le_u32 i with
      | .error e => .error e
      | .ok (i, size_of_uninitialized_code) =>
       match le_u32 i with
       | .error e => .error e
       | .ok (i, address_of_entry_point) =>
        match le_u32 i with
        | .error e => .error e
        | .ok (i, base_of_code) =>
         match le_u32 i with
         | .error e => .error e
         | .ok (i, base_of_data) =>
          match le_u32 i with
          | .error e => .error e
          | .ok (i, image_base) =>
           match le_u32 i with
           | .error e => .error e
           | .ok (i, section_of_alignment) =>
            match le_u32 i with
            | .error e => .error e
            | .ok (i, file_alignment) =>
             match le_u16 i with
             | .error e => .error e
             | .ok (i, major_operating_system_version) =>
              match le_u16 i with
              | .error e => .error e
              | .ok (i, minor_operating_system_version) =>
               match le_u16 i with
               | .error e => .error e
               | .ok (i, major_image_version) =>
                match le_u16 i with
                | .error e => .error e
                | .ok (i, minor_image_version) =>
                 match le_u16 i with
                 | .error e => .error e
                 | .ok (i, major_sub_system_version) =>
                  match le_u16 i with
                  | .error e => .error e
                  | .ok (i, minor_sub_system_version) =>
                   match le_u32 i with
                   | .error e => .error e
                   | .ok (i, win32_version_value) =>
                    match le_u32 i with
                    | .error e => .error e
                    | .ok (i, size_of_image) =>
                     match le_u32 i with
                     | .error e => .error e
                     | .ok (i, size_of_headers) =>
                      match le_u32 i with
                      | .error e => .error e
                      | .ok (i, check_sum) =>
                       match le_u16 i with
                       | .error e => .error e
                       | .ok (i, sub_system) =>
                        match le_u16 i with
                        | .error e => .error e
                        | .ok (i, dll_characteristics) =>
                         match le_u32 i with
                         | .error e => .error e
                         | .ok (i, size_of_stack_reserve) =>
                          match le_u32 i with
                          | .error e => .error e
                          | .ok (i, size_of_stack_commit) =>
                           match le_u32 i with
                           | .error e => .error e
                           | .ok (i, size_of_heap_reserve) =>
                            match le_u32 i with
                            | .error e => .error e
                            | .ok (i, size_of_heap_commit) =>
                             match le_u32 i with
                             | .error e => .error e
                             | .ok (i, loader_flags) =>
                              match le_u32 i with
                              | .error e => .error e
                              | .ok (i, number_of_rva_and_sizes) =>
                               match DataDirectories.parse i number_of_rva_and_sizes with
                               | .error e => .error e
                               | .ok (i, data_directories) =>
                                .ok (i,
                                 { magic := OptionalHeaderMagic.Pe32
                                   major_linker_version, minor_linker_version
                                   size_of_code, size_of_initialized_code
                                   size_of_uninitialized_code
                                   address_of_entry_point, base_of_code
                                   base_of_data, image_base
                                   section_of_alignment, file_alignment
                                   major_operating_system_version
                                   minor_operating_system_version
                                   major_image_version, minor_image_version
                                   major_sub_system_version
                                   minor_sub_system_version
                                   win32_version_value, size_of_image
                                   size_of_headers, check_sum, sub_system
                                   dll_characteristics
                                   size_of_stack_reserve, size_of_stack_commit
                                   size_of_heap_reserve, size_of_heap_commit
                                   loader_flags, number_of_rva_and_sizes
                                   data_directories })

/-- `OptionalHeader64` from `src/headers/nt.rs`. -/
structure OptionalHeader64 where
  magic : OptionalHeaderMagic
  major_linker_version : Nat
  minor_linker_version : Nat
  size_of_code : Nat
  size_of_initialized_code : Nat
  size_of_uninitialized_code : Nat
  address_of_entry_point : Nat
  base_of_code : Nat
  image_base : Nat
  section_of_alignment : Nat
  file_alignment : Nat
  major_operating_system_version : Nat
  minor_operating_system_version : Nat
  major_image_version : Nat
  minor_image_version : Nat
  major_sub_system_version : Nat
  minor_sub_system_version : Nat
  win32_version_value : Nat
  size_of_image : Nat
  size_of_headers : Nat
  check_sum : Nat
  sub_system : Nat
  dll_characteristics : Nat
  size_of_stack_reserve : Nat
  size_of_stack_commit : Nat
  size_of_heap_reserve : Nat
  size_of_heap_commit : Nat
  loader_flags : Nat
  number_of_rva_and_sizes : Nat
  data_directories : DataDirectories
deriving DecidableEq

/-- `OptionalHeader64::parse`: the 64-bit layout; no `base_of_data`,
`image_base` is an 8-byte read, the four reserve/commit sizes are 8-byte
reads. -/
def OptionalHeader64.parse (i : Input) : Except ErrKind (Input × OptionalHeader64) :=
  match u8r i with
  | .error e => .error e
  | .ok (i, major_linker_version) =>
   match u8r i with
   | .error e => .error e
   | .ok (i, minor_linker_version) =>
    match le_u32 i with
    | .error e => .error e
    | .ok (i, size_of_code) =>
     match le_u32 i with
     | .error e => .error e
     | .ok (i, size_of_initialized_code) =>
      match le_u32 i with
      | .error e => .error e
      | .ok (i, size_of_uninitialized_code) =>
       match le_u32 i with
       | .error e => .error e
       | .ok (i, address_of_entry_point) =>
        match le_u32 i with
        | .error e => .error e
        | .ok (i, base_of_code) =>
         match le_u64 i with
         | .error e => .error e
         | .ok (i, image_base) =>
          match le_u32 i with
          | .error e => .error e
          | .ok (i, section_of_alignment) =>
           match le_u32 i with
           | .error e => .error e
           | .ok (i, file_alignment) =>
            match le_u16 i with
            | .error e => .error e
            | .ok (i, major_operating_system_version) =>
             match le_u16 i with
             | .error e => .error e
             | .ok (i, minor_operating_system_version) =>
              match le_u16 i with
              | .error e => .error e
              | .ok (i, major_image_version) =>
               match le_u16 i with
               | .error e => .error e
               | .ok (i, minor_image_version) =>
                match le_u16 i with
                | .error e => .error e
                | .ok (i, major_sub_system_version) =>
                 match le_u16 i with
                 | .error e => .error e
                 | .ok (i, minor_sub_system_version) =>
                  match le_u32 i with
                  | .error e => .error e
                  | .ok (i, win32_version_value) =>
                   match le_u32 i with
                   | .error e => .error e
                   | .ok (i, size_of_image) =>
                    match le_u32 i with
                    | .error e => .error e
                    | .ok (i, size_of_headers) =>
                     match le_u32 i with
                     | .error e => .error e
                     | .ok (i, check_sum) =>
                      match le_u16 i with
                      | .error e => .error e
                      | .ok (i, sub_system) =>
                       match le_u16 i with
                       | .error e => .error e
                       | .ok (i, dll_characteristics) =>
                        match le_u64 i with
                        | .error e => .error e
                        | .ok (i, size_of_stack_reserve) =>
                         match le_u64 i with
                         | .error e => .error e
                         | .ok (i, size_of_stack_commit) =>
                          match le_u64 i with
                          | .error e => .error e
                          | .ok (i, size_of_heap_reserve) =>
                           match le_u64 i with
                           | .error e => .error e
                           | .ok (i, size_of_heap_commit) =>
                            match le_u32 i with
                            | .error e => .error e
                            | .ok (i, loader_flags) =>
                             match le_u32 i with
                             | .error e => .error e
                             | .ok (i, number_of_rva_and_sizes) =>
                              match DataDirectories.parse i number_of_rva_and_sizes with
                              | .error e => .error e
                              | .ok (i, data_directories) =>
                               .ok (i,
                                { magic := OptionalHeaderMagic.Pe32Plus
                                  major_linker_version, minor_linker_version
                                  size_of_code, size_of_initialized_code
                                  size_of_uninitialized_code
                                  address_of_entry_point, base_of_code
                                  image_base
                                  section_of_alignment, file_alignment
                                  major_operating_system_version
                                  minor_operating_system_version
                                  major_image_version, minor_image_version
                                  major_sub_system_version
                                  minor_sub_system_version
                                  win32_version_value, size_of_image
                                  size_of_headers, check_sum, sub_system
                                  dll_characteristics
                                  size_of_stack_reserve, size_of_stack_commit
                                  size_of_heap_reserve, size_of_heap_commit
                                  loader_flags, number_of_rva_and_sizes
                                  data_directories })

/-- `OptionalHeader`: the 32/64-bit tagged union. -/
inductive OptionalHeader where
  | Op32 : OptionalHeader32 → OptionalHeader
  | Op64 : OptionalHeader64 → OptionalHeader
deriving DecidableEq

/-- `OptionalHeader::parse`: dispatch on the already-read magic; the ROM
variant is rejected with a semantic `from_string` error before any
variant-specific field is consumed. -/
def OptionalHeader.parse (i : Input) (magic : OptionalHeaderMagic) :
    Except ErrKind (Input × OptionalHeader) :=
  match magic with
  | .Pe32 =>
    match OptionalHeader32.parse i with
    | .error e => .error e
    | .ok (i, oh) => .ok (i, .Op32 oh)
  | .Pe32Plus =>
    match OptionalHeader64.parse i with
    | .error e => .error e
    | .ok (i, oh) => .ok (i, .Op64 oh)
  | .Rom => .error (.str "ROM Images are not supported")

/-- `OptionalHeader::find_directory_by_entry`. -/
def OptionalHeader.find_directory_by_entry (oh : OptionalHeader)
    (entry : DirectoryEntry) : Option DataDirectory :=
  match oh with
  | .Op32 op => op.data_directories.find_by_entry entry
  | .Op64 op => op.data_directories.find_by_entry entry

/-- `NTHeader` from `src/headers/nt.rs`. -/
structure NTHeader where
  signature : List Nat
  file_header : FileHeader
  optional_header : OptionalHeader
deriving DecidableEq

/-- `NTHeader::parse`: the `PE\0\0` signature tag, then file header, then
optional-header magic, then the optional-header body. -/
def NTHeader.parse (i : Input) : Except ErrKind (Input × NTHeader) :=
  match tagBytes [0x50, 0x45, 0x00, 0x00] i with
  | .error e => .error e
  | .ok (i, signature) =>
    match FileHeader.parse i with
    | .error e => .error e
    | .ok (i, file_header) =>
      match OptionalHeaderMagic.parse i with
      | .error e => .error e
      | .ok (i, magic) =>
        match OptionalHeader.parse i magic with
        | .error e => .error e
        | .ok (i, optional_header) =>
          .ok (i, { signature, file_header, optional_header })

/-- `DosHeader` from `src/headers/dos.rs`; `lfanew` keeps its 4 raw
bytes, as in the source. -/
structure DosHeader where
  magic : List Nat
  cblp : Nat
  cp : Nat
  crlc : Nat
  cparhdr : Nat
  minalloc : Nat
  maxalloc : Nat
  ss : Nat
  sp : Nat
  csum : Nat
  ip : Nat
  cs : Nat
  lfarlc : Nat
  ovno : Nat
  res : List Nat
  oemid : Nat
  oeminfo : Nat
  res2 : List Nat
  lfanew : List Nat
deriving DecidableEq

/-- `DosHeader::parse`: the `MZ` tag, 13 `le_u16` fields, reserved spans
of 8 and 20 bytes with two `le_u16` fields between them, the 4-byte
`lfanew`, and a discarded 64-byte stub. -/
def DosHeader.parse (i : Input) : Except ErrKind (Input × DosHeader) :=
  match tagBytes [0x4d, 0x5a] i with
  | .error e => .error e
  | .ok (i, magic) =>
   match le_u16 i with
   | .error e => .error e
   | .ok (i, cblp) =>
    match le_u16 i with
    | .error e => .error e
    | .ok (i, cp) =>
     match le_u16 i with
     | .error e => .error e
     | .ok (i, crlc) =>
      match le_u16 i with
      | .error e => .error e
      | .ok (i, cparhdr) =>
       match le_u16 i with
       | .error e => .error e
       | .ok (i, minalloc) =>
        match le_u16 i with
        | .error e => .error e
        | .ok (i, maxalloc) =>
         match le_u16 i with
         | .error e => .error e
         | .ok (i, ss) =>
          match le_u16 i with
          | .error e => .error e
          | .ok (i, sp) =>
           match le_u16 i with
           | .error e => .error e
           | .ok (i, csum) =>
            match le_u16 i with
            | .error e => .error e
            | .ok (i, ip) =>
             match le_u16 i with
             | .error e => .error e
             | .ok (i, cs) =>
              match le_u16 i with
              | .error e => .error e
              | .ok (i, lfarlc) =>
               match le_u16 i with
               | .error e => .error e
               | .ok (i, ovno) =>
                match takeBytes 8 i with
                | .error e => .error e
                | .ok (i, res) =>
                 match le_u16 i with
                 | .error e => .error e
                 | .ok (i, oemid) =>
                  match le_u16 i with
                  | .error e => .error e
                  | .ok (i, oeminfo) =>
                   match takeBytes 20 i with
                   | .error e => .error e
                   | .ok (i, res2) =>
                    match takeBytes 4 i with
                    | .error e => .error e
                    | .ok (i, lfanew) =>
                     match takeBytes 64 i with
                     | .error e => .error e
                     | .ok (i, _) =>
                      .ok (i,
                       { magic, cblp, cp, crlc, cparhdr, minalloc, maxalloc
                         ss, sp, csum, ip, cs, lfarlc, ovno, res, oemid
                         oeminfo, res2, lfanew })

/-- The numeric value of the stored 4 `lfanew` bytes, used by
`PEHeader::parse` as the file offset of the NT header. -/
def DosHeader.lfanewValue (d : DosHeader) : Nat := readU32At d.lfanew 0

/-- `PEHeader` from `src/headers/mod.rs`. -/
structure PEHeader where
  dos_header : DosHeader
  nt_header : NTHeader
  sections : Sections
deriving DecidableEq

/-- `PEHeader::parse`: DOS header on the whole file, NT header re-anchored
at `pe_file[lfanew..]` (a Rust panic when `lfanew` exceeds the buffer
length), then the section table driven by the COFF section count. -/
def PEHeader.parse (pe_file : Input) : Except ErrKind (Input × PEHeader) :=
  match DosHeader.parse pe_file with
  | .error e => .error e
  | .ok (_, dos_header) =>
    if dos_header.lfanewValue ≤ pe_file.length then
      match NTHeader.parse (pe_file.drop dos_header.lfanewValue) with
      | .error e => .error e
      | .ok (i, nt_header) =>
        match Sections.parse i nt_header.file_header.num_of_sections with
        | .error e => .error e
        | .ok (i2, sections) => .ok (i2, { dos_header, nt_header, sections })
    else .error .panicked

/-- `ImportDescriptor::read_c_string`: bytes up to the first NUL are
lossily decoded; the NUL itself is skipped by `split_at(1)`, which
panics when no NUL exists in the slice (then `tail` is empty). -/
def read_c_string (input : Input) : Except ErrKind (Input × List Nat) :=
  let pos := (input.findIdx? (fun c => c % 256 = 0)).getD input.length
  match input.drop pos with
  | [] => .error .panicked
  | _ :: tail => .ok (tail, utf8Lossy ((input.take pos).map (fun b => b % 256)))

/-- `ImportDescriptor::get_dll_name`: resolve the name RVA through the
section (absent resolution gives `none`), then read a NUL-terminated
string at `&input[offset..]` (a panic when `offset` exceeds the buffer
length, or from `read_c_string`). -/
def get_dll_name (input : Input) (name_rva : Nat) (sec : Section) :
    Except ErrKind (Option (List Nat)) :=
  match sec.rva_to_offset name_rva with
  | none => .ok none
  | some offset =>
    if offset ≤ input.length then
      match read_c_string (input.drop offset) with
      | .error e => .error e
      | .ok (_, s) => .ok (some s)
    else .error .panicked

/-- `utils::read_null_terminated_string`: bytes up to the first NUL (or
the whole slice), lossily decoded; total. -/
def read_null_terminated_string (slice : Input) : List Nat :=
  let len := (slice.findIdx? (fun c => c % 256 = 0)).getD slice.length
  utf8Lossy ((slice.take len).map (fun b => b % 256))

/-- `ImportByName` {hint, name}. -/
structure ImportByName where
  hint : Nat
  name : List Nat
deriving DecidableEq

/-- `ImportByName::parse`: resolve the entry RVA (absent resolution gives
`none`); otherwise read a 16-bit hint at `&pe_file[offset..]` followed by
a NUL-terminated name at `&pe_file[offset+2..]` — raw indexing that
panics when fewer than two bytes remain at `offset`. -/
def ImportByName.parse (pe_file : Input) (rva : Nat) (sec : Section) :
    Except ErrKind (Option ImportByName) :=
  match sec.rva_to_offset rva with
  | none => .ok none
  | some offset =>
    if offset + 2 ≤ pe_file.length then
      .ok (some { hint := readU16At pe_file offset
                  name := read_null_terminated_string (pe_file.drop (offset + 2)) })
    else .error .panicked

/-- Fuelled worker for `ImportByNames::read_import_lookup_table`: read
32-bit entries at increasing offsets until a zero entry.  The Rust loop
indexes `&pe_file[current_offset..]` and `read_u32`s it with NO bound
check, so when fewer than 4 bytes remain it panics instead of stopping.
Each step advances the offset by 4, so fuel `pe_file.length + 1` is
always sufficient (the fuel-0 branch is unreachable from `iltRead`). -/
def iltGo (pe_file : Input) : Nat → Nat → Except ErrKind (List Nat)
  | 0, _ => .error .panicked
  | fuel + 1, off =>
    if off + 4 ≤ pe_file.length then
      let entry := readU32At pe_file off
      if entry = 0 then .ok []
      else
        match iltGo pe_file fuel (off + 4) with
        | .error e => .error e
        | .ok rest => .ok (entry :: rest)
    else .error .panicked

/-- `ImportByNames::read_import_lookup_table`: empty when the RVA does not
resolve; otherwise the zero-terminated 32-bit entry walk of `iltGo`. -/
def iltRead (pe_file : Input) (rva : Nat) (sec : Section) :
    Except ErrKind (List Nat) :=
  match sec.rva_to_offset rva with
  | none => .ok []
  | some offset => iltGo pe_file (pe_file.length + 1) offset

/-- `ImportByNames(Vec<ImportByName>)`. -/
structure ImportByNames where
  list : List ImportByName
deriving DecidableEq

/-- Loop body of `ImportByNames::parse`: an entry with the high bit set
(`entry & 0x80000000 != 0`; entries are u32 values, so this is
`0x80000000 <= entry`) is an ordinal-only import and is skipped; others
are resolved by `ImportByName::parse`, unresolvable ones skipped. -/
def ImportByNames.collect (pe_file : Input) (sec : Section) :
    List Nat → Except ErrKind (List ImportByName)
  | [] => .ok []
  | entry :: rest =>
    if 0x80000000 ≤ entry then ImportByNames.collect pe_file sec rest
    else
      match ImportByName.parse pe_file entry sec with
      | .error e => .error e
      | .ok none => ImportByNames.collect pe_file sec rest
      | .ok (some ibn) =>
        match ImportByNames.collect pe_file sec rest with
        | .error e => .error e
        | .ok l => .ok (ibn :: l)

/-- `ImportByNames::parse`. -/
def ImportByNames.parse (pe_file : Input) (original_first_thunk : Nat)
    (sec : Section) : Except ErrKind ImportByNames :=
  match iltRead pe_file original_first_thunk sec with
  | .error e => .error e
  | .ok ilt =>
    match ImportByNames.collect pe_file sec ilt with
    | .error e => .error e
    | .ok l => .ok (ImportByNames.mk l)

/-- `ImportDescriptor` from `src/imports/import_directory_table.rs`. -/
structure ImportDescriptor where
  original_first_thunk : Nat
  is_bound : Bool
  time_date_stamp : Nat
  forwarder_chain : Nat
  name_rva : Nat
  name : List Nat
  first_thunk : Nat
  import_by_names : ImportByNames
deriving DecidableEq

/-- `ImportDescriptor::parse`: five 32-bit fields from the cursor, then
the DLL name (best effort, empty on `None`) and the import-by-name list,
both resolved against the whole `pe_file`. -/
def ImportDescriptor.parse (pe_file i : Input) (sec : Section) :
    Except ErrKind (Input × ImportDescriptor) :=
  match le_u32 i with
  | .error e => .error e
  | .ok (i, original_first_thunk) =>
    match le_u32 i with
    | .error e => .error e
    | .ok (i, time_date_stamp) =>
      match le_u32 i with
      | .error e => .error e
      | .ok (i, forwarder_chain) =>
        match le_u32 i with
        | .error e => .error e
        | .ok (i, name_rva) =>
          match le_u32 i with
          | .error e => .error e
          | .ok (i, first_thunk) =>
            match get_dll_name pe_file name_rva sec with
            | .error e => .error e
            | .ok nameOpt =>
              match ImportByNames.parse pe_file original_first_thunk sec with
              | .error e => .error e
              | .ok import_by_names =>
                .ok (i,
                  { original_first_thunk
                    is_bound := time_date_stamp != 0
                    time_date_stamp, forwarder_chain, name_rva
                    name := nameOpt.getD []
                    first_thunk, import_by_names })

/-- `ImportDirectoryTable(Vec<ImportDescriptor>)`. -/
structure ImportDirectoryTable where
  list : List ImportDescriptor
deriving DecidableEq

/-- The sentinel test of the descriptor loop: all five raw fields zero. -/
def ImportDescriptor.isSentinel (d : ImportDescriptor) : Bool :=
  d.original_first_thunk = 0 && d.time_date_stamp = 0 &&
    d.forwarder_chain = 0 && d.name_rva = 0 && d.first_thunk = 0

/-- Fuelled worker for the `loop` in `ImportDirectoryTable::parse`: parse
descriptors until the first all-zero one, which is excluded and left
unconsumed (`cur` is returned, pointing at the sentinel).  Each
successful iteration consumes 20 bytes of `cur`, so fuel `cur.length + 1`
is always sufficient (the fuel-0 branch is unreachable from
`ImportDirectoryTable.parse`). -/
def descriptorLoop (pe_file : Input) (sec : Section) :
    Nat → Input → Except ErrKind (Input × List ImportDescriptor)
  | 0, _ => .error .eof
  | fuel + 1, cur =>
    match ImportDescriptor.parse pe_file cur sec with
    | .error e => .error e
    | .ok (i, d) =>
      if d.isSentinel then .ok (cur, [])
      else
        match descriptorLoop pe_file sec fuel i with
        | .error e => .error e
        | .ok (rem, ds) => .ok (rem, d :: ds)

/-- `ImportDirectoryTable::parse`: locate the containing section of the
directory's virtual address (no section: the table is EMPTY, returned
with the whole file as remaining input, not an error); resolve the RVA
(the `.unwrap()` panics if it fails, which the spec-modelled
`find_by_address` in fact rules out), re-anchor at
`&pe_file[offset..]` (a panic past the end) and run the sentinel loop. -/
def ImportDirectoryTable.parse (pe_file : Input) (import_directory : DataDirectory)
    (sections : Sections) : Except ErrKind (Input × ImportDirectoryTable) :=
  match sections.find_by_address import_directory.virtual_address with
  | some sec =>
    match sec.rva_to_offset import_directory.virtual_address with
    | none => .error .panicked
    | some offset =>
      if offset ≤ pe_file.length then
        let section_data := pe_file.drop offset
        match descriptorLoop pe_file sec (section_data.length + 1) section_data with
        | .error e => .error e
        | .ok (rem, ds) => .ok (rem, ImportDirectoryTable.mk ds)
      else .error .panicked
  | none => .ok (pe_file, ImportDirectoryTable.mk [])

/-- `Imports` from `src/imports/mod.rs`. -/
structure Imports where
  directory_table : ImportDirectoryTable
deriving DecidableEq

/-- `Imports::parse`: wraps `ImportDirectoryTable::parse`, discarding its
remaining input and returning the original one. -/
def Imports.parse (input : Input) (import_directory : DataDirectory)
    (sections : Sections) : Except ErrKind (Input × Imports) :=
  match ImportDirectoryTable.parse input import_directory sections with
  | .error e => .error e
  | .ok (_, directory_table) => .ok (input, Imports.mk directory_table)

/-- `ExportDirectoryTable` from `src/exports/export_directory_table.rs`;
`datetime` is the converted timestamp. -/
structure ExportDirectoryTable where
  characteristics : Nat
  datetime : Int
  major_version : Nat
  minor_version : Nat
  name : Nat
  base : Nat
  num_of_funcs : Nat
  num_of_names : Nat
  addr_of_funcs : Nat
  addr_of_names : Nat
  addr_of_name_ordi : Nat
deriving DecidableEq

/-- `ExportDirectoryTable::parse`: when no section contains the
directory's virtual address the result is `none` with the whole file as
remaining input (not an error); otherwise the fixed 40-byte export
directory header is read at the resolved offset, its timestamp converted
through `from_timestamp_opt` with the semantic rejection message
`wrong timestamp format` when undefined. -/
def ExportDirectoryTable.parse (pe_file : Input) (export_directory : DataDirectory)
    (sections : Sections) : Except ErrKind (Input × Option ExportDirectoryTable) :=
  match sections.find_by_address export_directory.virtual_address with
  | none => .ok (pe_file, none)
  | some sec =>
    match sec.rva_to_offset export_directory.virtual_address with
    | none => .error .panicked
    | some offset =>
      if offset ≤ pe_file.length then
        match le_u32 (pe_file.drop offset) with
        | .error e => .error e
        | .ok (i, characteristics) =>
         match le_u32 i with
         | .error e => .error e
         | .ok (i, time_date_stamp) =>
          match le_u16 i with
          | .error e => .error e
          | .ok (i, major_version) =>
           match le_u16 i with
           | .error e => .error e
           | .ok (i, minor_version) =>
            match le_u32 i with
            | .error e => .error e
            | .ok (i, name) =>
             match le_u32 i with
             | .error e => .error e
             | .ok (i, base) =>
              match le_u32 i with
              | .error e => .error e
              | .ok (i, num_of_funcs) =>
               match le_u32 i with
               | .error e => .error e
               | .ok (i, num_of_names) =>
                match le_u32 i with
                | .error e => .error e
                | .ok (i, addr_of_funcs) =>
                 match le_u32 i with
                 | .error e => .error e
                 | .ok (i, addr_of_names) =>
                  match le_u32 i with
                  | .error e => .error e
                  | .ok (i, addr_of_name_ordi) =>
                   match from_timestamp_opt (time_date_stamp : Int) with
                   | none => .error (.str "wrong timestamp format")
                   | some datetime =>
                    .ok (i, some
                     { characteristics, datetime, major_version
                       minor_version, name, base, num_of_funcs
                       num_of_names, addr_of_funcs, addr_of_names
                       addr_of_name_ordi })
      else .error .panicked

/-- `PE` from `src/lib.rs`. -/
structure PE where
  file : Input
  header : PEHeader
  imports : Option Imports
  export_ : Option ExportDirectoryTable
deriving DecidableEq

/-- `PE::parse`: header, then the import set when an Import directory
entry exists (resolved against the ORIGINAL buffer), then the export set
when an Export directory entry exists. -/
def PE.parse (input : Input) : Except ErrKind (Input × PE) :=
  match PEHeader.parse input with
  | .error e => .error e
  | .ok (i, header) =>
    let importStep : Except ErrKind (Input × Option Imports) :=
      match header.nt_header.optional_header.find_directory_by_entry .Import with
      | some import_directory =>
        match Imports.parse input import_directory header.sections with
        | .error e => .error e
        | .ok (i2, imports) => .ok (i2, some imports)
      | none => .ok (i, none)
    match importStep with
    | .error e => .error e
    | .ok (i, imports) =>
      let exportStep : Except ErrKind (Input × Option ExportDirectoryTable) :=
        match header.nt_header.optional_header.find_directory_by_entry .Export with
        | some export_directory =>
          ExportDirectoryTable.parse input export_directory header.sections
        | none => .ok (i, none)
      match exportStep with
      | .error e => .error e
      | .ok (i, export_) => .ok (i, { file := input, header, imports, export_ })

instance {e a : Type} [DecidableEq e] [DecidableEq a] : DecidableEq (Except e a) := fun x y =>
  match x, y with
  | .error u, .error v =>
    match decEq u v with
    | isTrue h => isTrue (by rw [h])
    | isFalse h => isFalse (fun hh => by cases hh; exact h rfl)
  | .ok u, .ok v =>
    match decEq u v with
    | isTrue h => isTrue (by rw [h])
    | isFalse h => isFalse (fun hh => by cases hh; exact h rfl)
  | .error _, .ok _ => isFalse (fun hh => Except.noConfusion hh)
  | .ok _, .error _ => isFalse (fun hh => Except.noConfusion hh)

/-- Does an error kind carry a `from_string` message, i.e. is it a
SemanticRejection in the spec's taxonomy? -/
def ErrKind.isSemanticRejection : ErrKind → Bool
  | .str _ => true
  | _ => false

/-- The magic-then-body sequence of `NTHeader::parse` (read the
optional-header magic, then dispatch on it), isolated for the theorems
about the optional header. -/
def parseOptionalHeader (i : Input) : Except ErrKind (Input × OptionalHeader) :=
  match OptionalHeaderMagic.parse i with
  | .error e => .error e
  | .ok (i, magic) => OptionalHeader.parse i magic

/-- Total companion of `DirectoryEntry.tryFrom` on indices 0..=15 (the
default is never used there). -/
def entryOfNat (k : Nat) : DirectoryEntry :=
  (DirectoryEntry.tryFrom k).getD .Export

/-- The name decoding described by the claim about section names: trim
the 8 name bytes AT THE FIRST NUL, then decode permissively.  This
follows the claim's words and is compared against `Section.parse`, which
instead trims trailing NULs after decoding. -/
def nameTrimAtFirstNul (bytes : List Nat) : List Nat :=
  utf8Lossy ((bytes.take ((bytes.findIdx? (fun c => c % 256 = 0)).getD bytes.length)).map
    (fun b => b % 256))

/-- The example section of the RVA-translation claim:
`virtual_address = 0x1000`, `ptr_to_raw_data = 0x400`. -/
def sectionRvaExample : Section :=
  { name := [], vir_size := 0, vir_addr := 0x1000, size_of_raw_data := 0
    ptr_to_raw_data := 0x400, ptr_to_relocs := 0, ptr_to_line_nums := 0
    num_of_relocs := 0, num_of_line_nums := 0, characteristics := 0 }

/-- A section with all fields zero (also the decode of a 40-zero-byte
section record). -/
def sectionZero : Section :=
  { name := [], vir_size := 0, vir_addr := 0, size_of_raw_data := 0
    ptr_to_raw_data := 0, ptr_to_relocs := 0, ptr_to_line_nums := 0
    num_of_relocs := 0, num_of_line_nums := 0, characteristics := 0 }

/-- A section whose `vir_addr` is 1 and `ptr_to_raw_data` 0, so that RVA 1
resolves to file offset 0 while RVA 0 resolves to no offset. -/
def sectionAtOne : Section :=
  { name := [], vir_size := 0, vir_addr := 1, size_of_raw_data := 0
    ptr_to_raw_data := 0, ptr_to_relocs := 0, ptr_to_line_nums := 0
    num_of_relocs := 0, num_of_line_nums := 0, characteristics := 0 }

/-- A 64-bit optional-header body (110 bytes): zeros except the 8-byte
`image_base` field at offsets 22..29, and a zero directory count. -/
def optBody64 : Input := List.replicate 22 0 ++ [1, 2, 3, 4, 5, 6, 7, 8] ++ List.replicate 80 0

/-- A 32-bit optional-header body (94 bytes): zeros except the 4-byte
`image_base` field at offsets 26..29, and a zero directory count. -/
def optBody32 : Input := List.replicate 26 0 ++ [1, 2, 3, 4] ++ List.replicate 64 0

/-- A 128-byte DOS header whose `lfanew` is 0x80, pointing right past the
stub. -/
def dosBytes : Input :=
  [0x4d, 0x5a] ++ List.replicate 58 0 ++ [0x80, 0, 0, 0] ++ List.replicate 64 0

/-- A 20-byte COFF file header: machine I386, one section, timestamp 0. -/
def coffBytes : Input :=
  [0x4c, 0x01, 1, 0] ++ List.replicate 12 0 ++ [0xE0, 0, 0, 0]

/-- A 40-byte section record named `.data` with `virtual_size` and
`virtual_address` 0x1000 and everything else zero. -/
def sectionRecordBytes : Input :=
  [0x2E, 0x64, 0x61, 0x74, 0x61, 0, 0, 0] ++ [0, 16, 0, 0] ++ [0, 16, 0, 0] ++
    List.replicate 24 0

/-- Two data-directory entries: Export at RVA 0x800 and Import at RVA
0x500, both below the single section's `virtual_address` 0x1000, so
neither has a containing section. -/
def twoDirBytes : Input :=
  [0, 8, 0, 0, 16, 0, 0, 0] ++ [0, 5, 0, 0, 32, 0, 0, 0]

/-- A full 304-byte PE image (32-bit) whose Import and Export directory
RVAs have no containing section. -/
def bufImportNoSection : Input :=
  dosBytes ++ [0x50, 0x45, 0, 0] ++ coffBytes ++ [0x0B, 0x01] ++
    (List.replicate 90 0 ++ [2, 0, 0, 0]) ++ twoDirBytes ++ sectionRecordBytes

/-- A full 288-byte PE image (32-bit) whose optional header declares a
directory count of 0. -/
def bufZeroDirectories : Input :=
  dosBytes ++ [0x50, 0x45, 0, 0] ++ coffBytes ++ [0x0B, 0x01] ++
    List.replicate 94 0 ++ sectionRecordBytes

/-- A 40-byte section record whose name bytes are `.text` padded with
NULs. -/
def recDotText : Input :=
  [0x2E, 0x74, 0x65, 0x78, 0x74, 0, 0, 0] ++ List.replicate 32 0

/-- A 40-byte section record whose name bytes have NULs in the interior:
`2E 00 74 00 00 00 00 00`. -/
def recInteriorNul : Input :=
  [0x2E, 0, 0x74, 0, 0, 0, 0, 0] ++ List.replicate 32 0

/-- A 41-byte buffer: one all-zero section record followed by a spare
byte, to observe the remaining input of `Sections.parse`. -/
def bufOneSection : Input := List.replicate 40 0 ++ [7]

/-- A 24-byte file whose bytes at offset 4 are exactly 20 zeros (an
all-zero import-descriptor table); the four leading 0x41 bytes are what
an import-lookup-table walk at RVA 0 reads through a section with
`virtual_address = 0`. -/
def bufC8Panic : Input := [0x41, 0x41, 0x41, 0x41] ++ List.replicate 20 0

/-- A successful `le_u16` consumes two bytes and yields `readU16At i 0`. -/
theorem le_u16_ok (i : Input) (h : 2 ≤ i.length) :
    le_u16 i = .ok (i.drop 2, readU16At i 0) := by
  match i with
  | [] => simp at h
  | [b0] => simp at h
  | b0 :: b1 :: r => simp [le_u16, readU16At, List.getD]

/-- A successful `le_u32` consumes four bytes and yields `readU32At i 0`. -/
theorem le_u32_ok (i : Input) (h : 4 ≤ i.length) :
    le_u32 i = .ok (i.drop 4, readU32At i 0) := by
  match i with
  | [] => simp at h
  | [b0] => simp at h
  | [b0, b1] => simp at h
  | [b0, b1, b2] => simp at h
  | b0 :: b1 :: b2 :: b3 :: r => simp [le_u32, readU32At, List.getD]

/-- `getD` after a `drop` reads at the shifted index. -/
theorem getD_drop (l : List Nat) (k j d : Nat) :
    (l.drop k).getD j d = l.getD (k + j) d := by
  induction k generalizing l with
  | zero => simp
  | succ k ih =>
    cases l with
    | nil => simp
    | cons a t => simp [Nat.succ_add, ih t]

/-- `readU32At` after a `drop` reads at the shifted offset. -/
theorem readU32At_drop (l : List Nat) (k j : Nat) :
    readU32At (l.drop k) j = readU32At l (k + j) := by
  simp [readU32At, getD_drop, Nat.add_assoc]

/-- `readU16At` after a `drop` reads at the shifted offset. -/
theorem readU16At_drop (l : List Nat) (k j : Nat) :
    readU16At (l.drop k) j = readU16At l (k + j) := by
  simp [readU16At, getD_drop, Nat.add_assoc]

/-- `le_u32` at file offset `k` of a long-enough buffer. -/
theorem le_u32_at (i : Input) (k : Nat) (h : k + 4 ≤ i.length) :
    le_u32 (i.drop k) = .ok (i.drop (k + 4), readU32At i k) := by
  have h4 : 4 ≤ (i.drop k).length := by simp [List.length_drop]; omega
  have := le_u32_ok (i.drop k) h4
  rwa [List.drop_drop, readU32At_drop, Nat.add_zero] at this

/-- `le_u16` at file offset `k` of a long-enough buffer. -/
theorem le_u16_at (i : Input) (k : Nat) (h : k + 2 ≤ i.length) :
    le_u16 (i.drop k) = .ok (i.drop (k + 2), readU16At i k) := by
  have h2 : 2 ≤ (i.drop k).length := by simp [List.length_drop]; omega
  have := le_u16_ok (i.drop k) h2
  rwa [List.drop_drop, readU16At_drop, Nat.add_zero] at this

/-- `takeBytes` on a long-enough buffer. -/
theorem takeBytes_ok (n : Nat) (i : Input) (h : n ≤ i.length) :
    takeBytes n i = .ok (i.drop n, (i.take n).map (fun b => b % 256)) := by
  simp [takeBytes, h]

/-- C1: for every `Section` and every RVA, `rva_to_offset` is
`Some(rva - virtual_address + ptr_to_raw_data)` (u32 arithmetic) exactly
when `rva >= virtual_address` — with no upper-bound check — and `None`
otherwise; on the section with `virtual_address = 0x1000` and
`ptr_to_raw_data = 0x400` it maps 0x1010 to 0x410, is absent at 0x0FFF,
and (absent upper bound) still resolves the far-away RVA 0x10000000. -/
theorem c1_rva_to_offset :
    (∀ (s : Section) (rva : Nat),
      s.rva_to_offset rva =
        if s.vir_addr ≤ rva then
          some ((rva - s.vir_addr + s.ptr_to_raw_data) % 4294967296)
        else none) ∧
    sectionRvaExample.rva_to_offset 0x1010 = some 0x410 ∧
    sectionRvaExample.rva_to_offset 0x0FFF = none ∧
    sectionRvaExample.rva_to_offset 0x10000000 = some 0x0FFFF400 := by
  refine ⟨fun s rva => rfl, by decide, by decide, by decide⟩

/-- C2: walking an import-lookup table whose buffer lacks the zero
terminator does NOT end in a recoverable Truncation error: on the 4-byte
buffer `01 00 00 00` (one nonzero entry, no terminator) the walk reaches
the end of the buffer and panics (out-of-bounds index), modelled as
`ErrKind.panicked`, which is neither the Truncation error `eof` nor any
recoverable error. -/
theorem c2_ilt_walk_panics_on_missing_terminator :
    iltRead [1, 0, 0, 0] 0 sectionZero = .error .panicked ∧
    ErrKind.panicked ≠ ErrKind.eof := by
  refine ⟨by decide, by decide⟩

/-- C3 counterexample: an optional-header magic outside the known set
(here 0x0100) does NOT fail with a SemanticRejection (`from_string`)
error: the parse fails at the `map_res` magic read with the `MapRes`
error kind, which carries no message. -/
theorem c3_unknown_magic_is_map_res_error :
    parseOptionalHeader [0x00, 0x01] = .error .mapRes ∧
    ErrKind.mapRes.isSemanticRejection = false := by
  refine ⟨by decide, by decide⟩

/-- C3 amended: magic 0x020B selects the 64-bit variant whose
`image_base` is read as an 8-byte little-endian value, magic 0x010B the
32-bit variant with a 4-byte `image_base`; magic 0x107 (ROM) fails with
the SemanticRejection message before any variant-specific field is
consumed; EVERY magic value outside the three known ones — any two magic
bytes whose 16-bit value is neither 0x10B nor 0x20B nor 0x107 — fails at
the magic read itself with a `MapRes` (unknown enumeration) error, not a
SemanticRejection. -/
theorem c3_magic_dispatch :
    (parseOptionalHeader ([0x0B, 0x02] ++ optBody64)).map
        (fun r => (r.1, match r.2 with | .Op64 o => some o.image_base | _ => none)) =
      .ok ([], some 0x0807060504030201) ∧
    (parseOptionalHeader ([0x0B, 0x01] ++ optBody32)).map
        (fun r => (r.1, match r.2 with | .Op32 o => some o.image_base | _ => none)) =
      .ok ([], some 0x04030201) ∧
    (∀ i : Input, OptionalHeader.parse i .Rom =
      .error (.str "ROM Images are not supported")) ∧
    (∀ (b0 b1 : Nat) (rest : Input),
      b0 % 256 + 256 * (b1 % 256) ≠ 0x10b →
      b0 % 256 + 256 * (b1 % 256) ≠ 0x20b →
      b0 % 256 + 256 * (b1 % 256) ≠ 0x107 →
      parseOptionalHeader (b0 :: b1 :: rest) = .error .mapRes) := by
  refine ⟨by decide, by decide, fun i => rfl, ?_⟩
  intro b0 b1 rest h1 h2 h3
  unfold parseOptionalHeader OptionalHeaderMagic.parse
  simp only [le_u16]
  have htf : OptionalHeaderMagic.tryFrom (b0 % 256 + 256 * (b1 % 256)) = none := by
    simp [OptionalHeaderMagic.tryFrom, h1, h2, h3]
  simp [htf]

/-- Witness for C3: the universal unknown-magic conjunct applied at the
magic bytes `00 01` (value 0x0100). -/
theorem c3_magic_dispatch_witness :
    parseOptionalHeader [0x00, 0x01] = .error .mapRes :=
  c3_magic_dispatch.2.2.2 0x00 0x01 [] (by decide) (by decide) (by decide)

/-- C6 counterexample: the section-name bytes `2E 00 74 00 00 00 00 00`
decode to the three code points `2E 00 74` (only TRAILING NULs are
stripped), not to the single code point `2E` that trimming at the FIRST
NUL — as the claim states — would give. -/
theorem c6_interior_nul_name :
    (Section.parse recInteriorNul).map (fun r => r.2.name) = .ok [0x2E, 0, 0x74] ∧
    nameTrimAtFirstNul [0x2E, 0, 0x74, 0, 0, 0, 0, 0] = [0x2E] ∧
    ([0x2E, 0, 0x74] : List Nat) ≠ [0x2E] := by
  refine ⟨by decide, by decide, by decide⟩

/-- C7: a declared directory count of 0 yields an empty
`DataDirectoryTable`, every lookup by directory kind on the empty table
is absent, and the decoded PE of a concrete image with count 0 reports
both imports and exports as absent. -/
theorem c7_zero_directory_count :
    (∀ buf : Input, DataDirectories.parse buf 0 = .ok (buf, ⟨[]⟩)) ∧
    (∀ e : DirectoryEntry, DataDirectories.find_by_entry ⟨[]⟩ e = none) ∧
    (PE.parse bufZeroDirectories).map (fun r => (r.2.imports, r.2.export_)) =
      .ok (none, none) := by
  refine ⟨fun buf => rfl, fun e => by simp [DataDirectories.find_by_entry], ?_⟩
  set_option maxRecDepth 40000 in decide

/-- C10: `Sections::parse` returns as its remaining input the very slice
it was given, for every input and section count; concretely, parsing one
section from a 41-byte buffer leaves the full 41-byte buffer (not the
buffer advanced past the 40-byte record) as the remaining input. -/
theorem c10_sections_parse_returns_original_input :
    (∀ (i : Input) (n : Nat) (rem : Input) (ss : Sections),
      Sections.parse i n = .ok (rem, ss) → rem = i) ∧
    Sections.parse bufOneSection 1 = .ok (bufOneSection, ⟨[sectionZero]⟩) ∧
    bufOneSection.drop 40 ≠ bufOneSection := by
  refine ⟨?_, by decide, by decide⟩
  intro i n rem ss h
  unfold Sections.parse at h
  cases hgo : Sections.parseGo i n with
  | error e => rw [hgo] at h; exact absurd h (by simp)
  | ok p => rw [hgo] at h; cases h; rfl

/-- Witness for C10 at the concrete 41-byte buffer. -/
theorem c10_sections_parse_returns_original_input_witness :
    bufOneSection = bufOneSection :=
  c10_sections_parse_returns_original_input.1 bufOneSection 1 bufOneSection
    ⟨[sectionZero]⟩ (by decide)

/-- On indices below 16, `DirectoryEntry.tryFrom` succeeds with
`entryOfNat`. -/
theorem tryFrom_lt_16 : ∀ k, k < 16 → DirectoryEntry.tryFrom k = some (entryOfNat k) := by
  decide

/-- Characterisation of the directory-table loop on in-range counts with
enough bytes: it consumes 8 bytes per entry and produces the entries in
index order. -/
theorem parseGo_ok (c : Nat) : ∀ (idx : Nat) (buf : Input), idx + c ≤ 16 → 8 * c ≤ buf.length →
    DataDirectories.parseGo idx c buf = .ok (buf.drop (8 * c),
      (List.range c).map (fun j =>
        ⟨entryOfNat (idx + j), readU32At buf (8 * j), readU32At buf (8 * j + 4)⟩)) := by
  induction c with
  | zero => intro idx buf h1 h2; simp [DataDirectories.parseGo]
  | succ c ih =>
    intro idx buf h1 h2
    have htf : DirectoryEntry.tryFrom idx = some (entryOfNat idx) :=
      tryFrom_lt_16 idx (by omega)
    have h1r : le_u32 buf = .ok (buf.drop 4, readU32At buf 0) :=
      le_u32_ok buf (by omega)
    have h2r : le_u32 (buf.drop 4) = .ok (buf.drop (4 + 4), readU32At buf 4) :=
      le_u32_at buf 4 (by omega)
    have hrec := ih (idx + 1) (buf.drop 8) (by omega) (by simp [List.length_drop]; omega)
    simp only [DataDirectories.parseGo, htf, DataDirectory.parse, h1r, h2r]
    norm_num
    rw [hrec, List.drop_drop, List.range_succ_eq_map, List.map_cons, List.map_map]
    dsimp only
    rw [show (8 : Nat) + 8 * c = 8 * (c + 1) from by ring]
    refine congrArg Except.ok ?_
    refine congrArg (Prod.mk _) ?_
    congr 1
    apply List.map_congr_left
    intro j hj
    simp only [Function.comp_apply, readU32At_drop, DataDirectory.mk.injEq]
    exact ⟨congrArg entryOfNat (by omega), congrArg _ (by omega), congrArg _ (by omega)⟩

/-- The directory-table loop can never succeed once the running index
must pass 16: index 16 itself is rejected as an unknown enumeration
value, and any shorter path ends in a read error. -/
theorem parseGo_err (c : Nat) : ∀ (idx : Nat) (buf : Input), idx ≤ 16 → 17 ≤ idx + c →
    ∀ r, DataDirectories.parseGo idx c buf ≠ .ok r := by
  induction c with
  | zero => intro idx buf h1 h2 r; omega
  | succ c ih =>
    intro idx buf h1 h2 r
    by_cases hidx : idx < 16
    · have htf : DirectoryEntry.tryFrom idx = some (entryOfNat idx) :=
        tryFrom_lt_16 idx hidx
      simp only [DataDirectories.parseGo, htf]
      cases hp : DataDirectory.parse (entryOfNat idx) buf with
      | error e => simp [hp]
      | ok p =>
        obtain ⟨buf2, dir⟩ := p
        simp only [hp]
        cases hgo : DataDirectories.parseGo (idx + 1) c buf2 with
        | error e => simp [hgo]
        | ok q => exact absurd hgo (ih (idx + 1) buf2 (by omega) (by omega) q)
    · have h16 : idx = 16 := by omega
      subst h16
      have htf : DirectoryEntry.tryFrom 16 = none := by decide
      simp [DataDirectories.parseGo, htf]

/-- C5: with declared count `n <= 16` and enough bytes, the data-directory
table parse reads, for each index, the enumeration kind followed by two
32-bit little-endian values, producing exactly `n` entries and consuming
`8 n` bytes; for any `n > 16` the parse can never succeed. -/
theorem c5_data_directory_parse (n : Nat) (buf : Input) :
    (n ≤ 16 → 8 * n ≤ buf.length →
      DataDirectories.parse buf n = .ok (buf.drop (8 * n),
        ⟨(List.range n).map (fun j =>
          ⟨entryOfNat j, readU32At buf (8 * j), readU32At buf (8 * j + 4)⟩)⟩)) ∧
    (16 < n → ∀ r, DataDirectories.parse buf n ≠ .ok r) := by
  constructor
  · intro h1 h2
    have hgo := parseGo_ok n 0 buf (by omega) h2
    simp [DataDirectories.parse, hgo]
  · intro h r hok
    unfold DataDirectories.parse at hok
    cases hgo : DataDirectories.parseGo 0 n buf with
    | error e => rw [hgo] at hok; exact absurd hok (by simp)
    | ok p => exact parseGo_err n 0 buf (by omega) (by omega) p hgo

/-- Witness for C5: a concrete in-range parse (count 2 over 16 zero
bytes) and a concrete over-range failure (count 17). -/
theorem c5_data_directory_parse_witness :
    DataDirectories.parse (List.replicate 16 0) 2 = .ok ((List.replicate 16 0).drop (8 * 2),
      ⟨(List.range 2).map (fun j =>
        ⟨entryOfNat j, readU32At (List.replicate 16 0) (8 * j),
          readU32At (List.replicate 16 0) (8 * j + 4)⟩)⟩) ∧
    DataDirectories.parse (List.replicate 200 0) 17 ≠ .ok ([], ⟨[]⟩) :=
  ⟨(c5_data_directory_parse 2 (List.replicate 16 0)).1 (by decide) (by decide),
   (c5_data_directory_parse 17 (List.replicate 200 0)).2 (by decide) ([], ⟨[]⟩)⟩

/-- C6 amended: every 40-byte section record parses successfully; its
name is the permissive (lossy) decode of the 8 raw name bytes with the
TRAILING NULs stripped (`trim_end_matches('\0')`, not a cut at the first
NUL); in particular the name bytes `2E 74 65 78 74 00 00 00` decode to
exactly `.text`. -/
theorem c6_name_trailing_nul_trim :
    (∀ i : Input, 40 ≤ i.length →
      Section.parse i = .ok (i.drop 40,
        { name := dropTrailingZeros (utf8Lossy ((i.take 8).map (fun b => b % 256)))
          vir_size := readU32At i 8
          vir_addr := readU32At i 12
          size_of_raw_data := readU32At i 16
          ptr_to_raw_data := readU32At i 20
          ptr_to_relocs := readU32At i 24
          ptr_to_line_nums := readU32At i 28
          num_of_relocs := readU16At i 32
          num_of_line_nums := readU16At i 34
          characteristics := readU32At i 36 })) ∧
    (Section.parse recDotText).map (fun r => r.2.name) = .ok [0x2E, 0x74, 0x65, 0x78, 0x74] := by
  constructor
  · intro i h
    simp only [Section.parse, takeBytes_ok 8 i (by omega),
      le_u32_at i 8 (by omega), le_u32_at i 12 (by omega), le_u32_at i 16 (by omega),
      le_u32_at i 20 (by omega), le_u32_at i 24 (by omega), le_u32_at i 28 (by omega),
      le_u16_at i 32 (by omega), le_u16_at i 34 (by omega), le_u32_at i 36 (by omega)]
  · decide

/-- Witness for the general part of the C6 amended theorem, at a concrete
40-byte record. -/
theorem c6_name_trailing_nul_trim_witness :
    Section.parse recInteriorNul = .ok (recInteriorNul.drop 40,
      { name := dropTrailingZeros (utf8Lossy ((recInteriorNul.take 8).map (fun b => b % 256)))
        vir_size := readU32At recInteriorNul 8
        vir_addr := readU32At recInteriorNul 12
        size_of_raw_data := readU32At recInteriorNul 16
        ptr_to_raw_data := readU32At recInteriorNul 20
        ptr_to_relocs := readU32At recInteriorNul 24
        ptr_to_line_nums := readU32At recInteriorNul 28
        num_of_relocs := readU16At recInteriorNul 32
        num_of_line_nums := readU16At recInteriorNul 34
        characteristics := readU32At recInteriorNul 36 }) :=
  c6_name_trailing_nul_trim.1 recInteriorNul (by decide)

/-- C4 counterexample: on a concrete PE whose Import directory RVA has no
containing section, the decoded image reports the import set as PRESENT
with an empty descriptor list (`Some`), not absent (`None`) as the claim
states for both sub-tables. -/
theorem c4_import_table_present_but_empty :
    (PE.parse bufImportNoSection).map (fun r => (r.2.imports, r.2.export_)) =
      .ok (some ⟨⟨[]⟩⟩, none) ∧
    some (⟨⟨[]⟩⟩ : Imports) ≠ (none : Option Imports) := by
  constructor
  · set_option maxRecDepth 40000 in decide
  · decide

/-- C4 amended: when a directory entry's virtual address has no containing
section the decode still succeeds (no error is propagated); the EXPORT
sub-table becomes absent, while the IMPORT table becomes a present but
empty descriptor list; on the concrete image both behaviours are visible
in the decoded PE. -/
theorem c4_missing_section_behavior :
    (∀ (pe : Input) (dir : DataDirectory) (ss : Sections),
      ss.find_by_address dir.virtual_address = none →
      ImportDirectoryTable.parse pe dir ss = .ok (pe, ⟨[]⟩)) ∧
    (∀ (pe : Input) (dir : DataDirectory) (ss : Sections),
      ss.find_by_address dir.virtual_address = none →
      ExportDirectoryTable.parse pe dir ss = .ok (pe, none)) ∧
    (PE.parse bufImportNoSection).map (fun r => (r.2.imports, r.2.export_)) =
      .ok (some ⟨⟨[]⟩⟩, none) := by
  refine ⟨?_, ?_, ?_⟩
  · intro pe dir ss h; simp [ImportDirectoryTable.parse, h]
  · intro pe dir ss h; simp [ExportDirectoryTable.parse, h]
  · set_option maxRecDepth 40000 in decide

/-- Witness for C4 at concrete empty section tables. -/
theorem c4_missing_section_behavior_witness :
    ImportDirectoryTable.parse [] ⟨.Import, 5, 0⟩ ⟨[]⟩ = .ok ([], ⟨[]⟩) ∧
    ExportDirectoryTable.parse [] ⟨.Export, 8, 0⟩ ⟨[]⟩ = .ok ([], none) :=
  ⟨c4_missing_section_behavior.1 [] ⟨.Import, 5, 0⟩ ⟨[]⟩ (by decide),
   c4_missing_section_behavior.2.1 [] ⟨.Export, 8, 0⟩ ⟨[]⟩ (by decide)⟩

/-- C8 counterexample: the claim as stated is false when the containing
section has `virtual_address = 0`.  On the 24-byte file
`41 41 41 41` ++ 20 zeros with a section {virtual_address: 0,
ptr_to_raw_data: 0} and import-directory RVA 4, the bytes at the
resolved offset ARE exactly 20 zeros, yet the decode does not succeed
with an empty list: the sentinel descriptor's own lookup-table RVA 0
resolves through the zero-based section, the walk reads the entry
0x41414141, and `ImportByName::parse` indexes the file at that offset —
out of bounds, a panic. -/
theorem c8_zero_va_sentinel_panics :
    (bufC8Panic.drop 4).take 20 = List.replicate 20 0 ∧
    ImportDirectoryTable.parse bufC8Panic ⟨.Import, 4, 20⟩ ⟨[sectionZero]⟩ =
      .error .panicked := by
  refine ⟨by decide, by decide⟩

/-- C8 amended: when the containing section is found WITH A NONZERO
virtual address (so that the sentinel's zero RVAs do not resolve through
it) and the 20 bytes at the resolved import-directory offset are all
zero, decoding the import table succeeds and yields an empty descriptor
list: the all-zero sentinel is recognised as the immediate terminator. -/
theorem c8_all_zero_descriptor_table (pe : Input) (dir : DataDirectory) (ss : Sections)
    (s : Section) (off : Nat)
    (hfind : ss.find_by_address dir.virtual_address = some s)
    (hpos : 0 < s.vir_addr)
    (hoff : s.rva_to_offset dir.virtual_address = some off)
    (hlen : off + 20 ≤ pe.length)
    (hzero : (pe.drop off).take 20 =
      [0, 0, 0, 0, 0, 0, 0, 0, 0, 0, 0, 0, 0, 0, 0, 0, 0, 0, 0, 0]) :
    ImportDirectoryTable.parse pe dir ss = .ok (pe.drop off, ⟨[]⟩) := by
  have hle : off ≤ pe.length := by omega
  have hnz : ¬ (s.vir_addr ≤ 0) := by omega
  have hrva0 : s.rva_to_offset 0 = none := by
    simp [Section.rva_to_offset, hnz]
  have hsd : pe.drop off =
      [0, 0, 0, 0, 0, 0, 0, 0, 0, 0, 0, 0, 0, 0, 0, 0, 0, 0, 0, 0] ++
        (pe.drop off).drop 20 := by
    conv_lhs => rw [← List.take_append_drop 20 (pe.drop off)]
    rw [hzero]
  have hparse : ImportDescriptor.parse pe (pe.drop off) s = .ok ((pe.drop off).drop 20,
      { original_first_thunk := 0, is_bound := false, time_date_stamp := 0
        forwarder_chain := 0, name_rva := 0, name := [], first_thunk := 0
        import_by_names := ⟨[]⟩ }) := by
    generalize hrest : (pe.drop off).drop 20 = rest at hsd ⊢
    rw [hsd]
    simp [ImportDescriptor.parse, le_u32, get_dll_name, ImportByNames.parse, iltRead,
      ImportByNames.collect, hrva0]
  have hloop : descriptorLoop pe s ((pe.drop off).length + 1) (pe.drop off) =
      .ok (pe.drop off, []) := by
    simp only [descriptorLoop, hparse]
    simp [ImportDescriptor.isSentinel]
  simp only [ImportDirectoryTable.parse, hfind, hoff]
  rw [if_pos hle]
  rw [hloop]

/-- Witness for C8: a 20-zero-byte file with a section mapping the
directory RVA 1 to file offset 0. -/
theorem c8_all_zero_descriptor_table_witness :
    ImportDirectoryTable.parse (List.replicate 20 0) ⟨.Import, 1, 20⟩ ⟨[sectionAtOne]⟩ =
      .ok ((List.replicate 20 0).drop 0, ⟨[]⟩) :=
  c8_all_zero_descriptor_table (List.replicate 20 0) ⟨.Import, 1, 20⟩ ⟨[sectionAtOne]⟩
    sectionAtOne 0 (by decide) (by decide) (by decide) (by decide) (by decide)

/-- A failing `le_u16` always fails with the insufficient-bytes error. -/
theorem le_u16_error {i : Input} {e : ErrKind} (h : le_u16 i = .error e) : e = .eof := by
  rcases i with _ | ⟨b0, _ | ⟨b1, r⟩⟩ <;> simp_all [le_u16]

/-- A failing `le_u32` always fails with the insufficient-bytes error. -/
theorem le_u32_error {i : Input} {e : ErrKind} (h : le_u32 i = .error e) : e = .eof := by
  rcases i with _ | ⟨b0, _ | ⟨b1, _ | ⟨b2, _ | ⟨b3, r⟩⟩⟩⟩ <;> simp_all [le_u32]

/-- A successful `le_u32` yields a value below 2^32. -/
theorem le_u32_lt {i i2 : Input} {v : Nat} (h : le_u32 i = .ok (i2, v)) :
    v < 4294967296 := by
  rcases i with _ | ⟨b0, _ | ⟨b1, _ | ⟨b2, _ | ⟨b3, r⟩⟩⟩⟩ <;> simp_all [le_u32]
  omega

/-- A failing machine-code read fails with the insufficient-bytes or the
unknown-enumeration error, never a semantic message. -/
theorem machine_parse_err {i : Input} {e : ErrKind} (h : Machine.parse i = .error e) :
    e = .eof ∨ e = .mapRes := by
  unfold Machine.parse at h
  cases hl : le_u16 i with
  | error e2 =>
    simp only [hl] at h
    cases h
    exact Or.inl (le_u16_error hl)
  | ok p =>
    obtain ⟨i2, x⟩ := p
    simp only [hl] at h
    cases htf : Machine.tryFrom x with
    | some m => simp [htf] at h
    | none =>
      simp only [htf] at h
      cases h
      exact Or.inr rfl

/-- `FileHeader::parse` can never fail with a `from_string` message: in
particular its timestamp-conversion failure branch is unreachable,
because every u32 timestamp lies inside chrono's datetime range. -/
theorem fileHeader_no_str (i : Input) (msg : String) :
    FileHeader.parse i ≠ .error (.str msg) := by
  intro h
  unfold FileHeader.parse at h
  cases h0 : Machine.parse i with
  | error e =>
    simp only [h0] at h
    obtain rfl | rfl := machine_parse_err h0 <;> simp at h
  | ok p =>
    obtain ⟨i1, machine⟩ := p
    simp only [h0] at h
    cases h1 : le_u16 i1 with
    | error e => obtain rfl := le_u16_error h1; simp only [h1] at h; simp at h
    | ok p1 =>
      obtain ⟨i2, nsec⟩ := p1
      simp only [h1] at h
      cases h2 : le_u32 i2 with
      | error e => obtain rfl := le_u32_error h2; simp only [h2] at h; simp at h
      | ok p2 =>
        obtain ⟨i3, ts⟩ := p2
        simp only [h2] at h
        cases h3 : le_u32 i3 with
        | error e => obtain rfl := le_u32_error h3; simp only [h3] at h; simp at h
        | ok p3 =>
          obtain ⟨i4, ptr⟩ := p3
          simp only [h3] at h
          cases h4 : le_u32 i4 with
          | error e => obtain rfl := le_u32_error h4; simp only [h4] at h; simp at h
          | ok p4 =>
            obtain ⟨i5, syms⟩ := p4
            simp only [h4] at h
            cases h5 : le_u16 i5 with
            | error e => obtain rfl := le_u16_error h5; simp only [h5] at h; simp at h
            | ok p5 =>
              obtain ⟨i6, szopt⟩ := p5
              simp only [h5] at h
              cases h6 : le_u16 i6 with
              | error e => obtain rfl := le_u16_error h6; simp only [h6] at h; simp at h
              | ok p6 =>
                obtain ⟨i7, chars⟩ := p6
                simp only [h6] at h
                have hts : ts < 4294967296 := le_u32_lt h2
                have hcMin : chronoMinSecs ≤ (ts : Int) := by unfold chronoMinSecs; omega
                have hcMax : (ts : Int) ≤ chronoMaxSecs := by unfold chronoMaxSecs; omega
                have hconv : from_timestamp_opt (ts : Int) = some (ts : Int) := by
                  unfold from_timestamp_opt
                  rw [if_pos ⟨hcMin, hcMax⟩]
                simp only [hconv] at h
                simp at h

/-- `ExportDirectoryTable::parse` can never fail with a `from_string`
message: its timestamp-conversion failure branch is unreachable. -/
theorem export_no_str (pe : Input) (dir : DataDirectory) (ss : Sections) (msg : String) :
    ExportDirectoryTable.parse pe dir ss ≠ .error (.str msg) := by
  intro h
  unfold ExportDirectoryTable.parse at h
  cases hf : ss.find_by_address dir.virtual_address with
  | none => simp only [hf] at h; simp at h
  | some s =>
    simp only [hf] at h
    cases ho : s.rva_to_offset dir.virtual_address with
    | none => simp only [ho] at h; simp at h
    | some off =>
      simp only [ho] at h
      by_cases hle : off ≤ pe.length
      case neg => rw [if_neg hle] at h; simp at h
      rw [if_pos hle] at h
      cases r1 : le_u32 (pe.drop off) with
      | error e => obtain rfl := le_u32_error r1; simp only [r1] at h; simp at h
      | ok p1 =>
        obtain ⟨i1, v1⟩ := p1
        simp only [r1] at h
        cases r2 : le_u32 i1 with
        | error e => obtain rfl := le_u32_error r2; simp only [r2] at h; simp at h
        | ok p2 =>
          obtain ⟨i2, ts⟩ := p2
          simp only [r2] at h
          cases r3 : le_u16 i2 with
          | error e => obtain rfl := le_u16_error r3; simp only [r3] at h; simp at h
          | ok p3 =>
            obtain ⟨i3, v3⟩ := p3
            simp only [r3] at h
            cases r4 : le_u16 i3 with
            | error e => obtain rfl := le_u16_error r4; simp only [r4] at h; simp at h
            | ok p4 =>
              obtain ⟨i4, v4⟩ := p4
              simp only [r4] at h
              cases r5 : le_u32 i4 with
              | error e => obtain rfl := le_u32_error r5; simp only [r5] at h; simp at h
              | ok p5 =>
                obtain ⟨i5, v5⟩ := p5
                simp only [r5] at h
                cases r6 : le_u32 i5 with
                | error e => obtain rfl := le_u32_error r6; simp only [r6] at h; simp at h
                | ok p6 =>
                  obtain ⟨i6, v6⟩ := p6
                  simp only [r6] at h
                  cases r7 : le_u32 i6 with
                  | error e => obtain rfl := le_u32_error r7; simp only [r7] at h; simp at h
                  | ok p7 =>
                    obtain ⟨i7, v7⟩ := p7
                    simp only [r7] at h
                    cases r8 : le_u32 i7 with
                    | error e => obtain rfl := le_u32_error r8; simp only [r8] at h; simp at h
                    | ok p8 =>
                      obtain ⟨i8, v8⟩ := p8
                      simp only [r8] at h
                      cases r9 : le_u32 i8 with
                      | error e => obtain rfl := le_u32_error r9; simp only [r9] at h; simp at h
                      | ok p9 =>
                        obtain ⟨i9, v9⟩ := p9
                        simp only [r9] at h
                        cases r10 : le_u32 i9 with
                        | error e =>
                          obtain rfl := le_u32_error r10; simp only [r10] at h; simp at h
                        | ok p10 =>
                          obtain ⟨i10, v10⟩ := p10
                          simp only [r10] at h
                          cases r11 : le_u32 i10 with
                          | error e =>
                            obtain rfl := le_u32_error r11; simp only [r11] at h; simp at h
                          | ok p11 =>
                            obtain ⟨i11, v11⟩ := p11
                            simp only [r11] at h
                            have hts : ts < 4294967296 := le_u32_lt r2
                            have hcMin : chronoMinSecs ≤ (ts : Int) := by
                              unfold chronoMinSecs; omega
                            have hcMax : (ts : Int) ≤ chronoMaxSecs := by
                              unfold chronoMaxSecs; omega
                            have hconv : from_timestamp_opt (ts : Int) = some (ts : Int) := by
                              unfold from_timestamp_opt
                              rw [if_pos ⟨hcMin, hcMax⟩]
                            simp only [hconv] at h
                            simp at h

/-- C9: every u32 timestamp value converts successfully through
`from_timestamp_opt` (every u32 number of seconds is a representable
calendar datetime), so the `wrong timestamp format` error branch in
`FileHeader::parse` and `ExportDirectoryTable::parse` is unreachable. -/
theorem c9_timestamp_conversion_total :
    (∀ t : Nat, t < 4294967296 → (from_timestamp_opt (t : Int)).isSome = true) ∧
    (∀ i : Input, FileHeader.parse i ≠ .error (.str "wrong timestamp format")) ∧
    (∀ (pe : Input) (dir : DataDirectory) (ss : Sections),
      ExportDirectoryTable.parse pe dir ss ≠ .error (.str "wrong timestamp format")) := by
  refine ⟨?_, ?_, ?_⟩
  · intro t ht
    have hcMin : chronoMinSecs ≤ (t : Int) := by unfold chronoMinSecs; omega
    have hcMax : (t : Int) ≤ chronoMaxSecs := by unfold chronoMaxSecs; omega
    unfold from_timestamp_opt
    rw [if_pos ⟨hcMin, hcMax⟩]
    rfl
  · intro i
    exact fileHeader_no_str i "wrong timestamp format"
  · intro pe dir ss
    exact export_no_str pe dir ss "wrong timestamp format"

/-- Witness for C9 at the timestamp 0 and at concrete empty inputs. -/
theorem c9_timestamp_conversion_total_witness :
    (from_timestamp_opt ((0 : Nat) : Int)).isSome = true ∧
    FileHeader.parse [] ≠ .error (.str "wrong timestamp format") :=
  ⟨c9_timestamp_conversion_total.1 0 (by decide),
   c9_timestamp_conversion_total.2.1 []⟩

end Pe
